import Mathlib

/-!
Verification of the three-layer priority override registry of
`app/core/registry.py`, `app/hooks/registry.py` and `app/tools/registry.py`.

Python `dict`s are insertion-ordered maps; we model them as association
lists (`List (String × α)`) where assignment to an existing key keeps its
position and assignment to a fresh key appends at the end, matching CPython
semantics.  Callables are modelled as first-class data (`Callable`): the
registries never call the functions they store, they only move them around,
so the identity of each closure created by the source code is what matters
for the list-level claims; the observable behaviour of wrapper closures is
modelled separately by `createWrapperFn` / `applyWrapSync` over actual Lean
functions.
-/

set_option autoImplicit false

/-- Lookup in an insertion-ordered dict (`d[k]` / `d.get(k)`); the lists
built by `dinsert` are duplicate-free, mirroring real dicts. -/
def dlookup {α : Type} : List (String × α) → String → Option α
  | [], _ => none
  | p :: m, k => if p.1 = k then some p.2 else dlookup m k

/-- Key-membership test (`k in d`). -/
def dcontains {α : Type} : List (String × α) → String → Bool
  | [], _ => false
  | p :: m, k => p.1 = k || dcontains m k

/-- Assignment `d[k] = v`: overwrite in place if the key exists (keeping its
position, as CPython does), otherwise append the new pair at the end. -/
def dinsert {α : Type} : List (String × α) → String → α → List (String × α)
  | [], k, v => [(k, v)]
  | p :: m, k, v => if p.1 = k then (k, v) :: m else p :: dinsert m k v

/-- `d.pop(k, None)`: remove the entry for `k` if present. -/
def dpop {α : Type} (m : List (String × α)) (k : String) : List (String × α) :=
  m.filter (fun p => ¬ (p.1 = k))

/-- `list(d.values())` in insertion order. -/
def dvalues {α : Type} (m : List (String × α)) : List α :=
  m.map (fun p => p.2)

/-- `d.update(other)`: fold the entries of `other` into `m`. -/
def dupdate {α : Type} (m other : List (String × α)) : List (String × α) :=
  other.foldl (fun acc p => dinsert acc p.1 p.2) m

/-- Python truthiness of an optional string (`if project_id:`): `None` and
the empty string are falsy. -/
def truthy : Option String → Option String
  | some s => if s = "" then none else some s
  | none => none

/-- Callables moved around by the registries.  `fn i` are arbitrary user
functions; `builtinCS`/`builtinPII`/`builtinQC` are the lazily imported
builtin guardrails (`content_safety_check`, `pii_filter_check`,
`quality_check`); the remaining constructors are the distinct closures
created by `HooksRegistry._create_wrapper`, `ToolRegistry._apply_wrap` and
`ToolRegistry._apply_inherit` (each closure records exactly what it closes
over). -/
inductive Callable where
  | fn : Nat → Callable
  | builtinCS : Callable
  | builtinPII : Callable
  | builtinQC : Callable
  | hookWrapped : Callable → Callable → Callable
  | toolWrapped : Option Callable → Option Callable → Callable → Callable
  | toolInherited : Callable → Option String → Callable


/-- `RegistryConflictError(name, level)` from `app/core/registry.py`; the
`RegistryLevel` enum value is kept as its string payload. -/
structure RegistryConflictError where
  name : String
  level : String


/-- `HookConfig` from `app/hooks/config.py`.  The metadata fields `level`,
`on_failure` and `description` are never read by the registry logic and are
omitted. -/
structure HookConfig where
  name : String
  hook_fn : Callable
  hook_type : String := "post"
  enabled : Bool := true


/-- `HookOverride` from `app/hooks/config.py`. -/
structure HookOverride where
  hook_name : String
  mode : String := "disable"
  replacement : Option Callable := none
  wrapper : Option Callable := none


/-- `BuiltinFlags` from `app/hooks/registry.py`; the float
`min_quality_score` is only ever stored and copied, never computed with, so
it is represented as a rational. -/
structure BuiltinFlags where
  enable_content_safety : Bool := false
  content_safety_level : String := "moderate"
  enable_pii_filter : Bool := false
  pii_types : List String := ["email", "phone", "ssn", "credit_card"]
  enable_quality_check : Bool := false
  min_quality_score : Rat := 6 / 10
  max_output_length : Option Int := none


/-- `HooksConfig` from `app/hooks/config.py`. -/
structure HooksConfig where
  pre_hooks : List HookConfig := []
  post_hooks : List HookConfig := []
  overrides : List HookOverride := []
  enable_content_safety : Bool := false
  content_safety_level : String := "moderate"
  enable_pii_filter : Bool := false
  pii_types : List String := ["email", "phone", "ssn", "credit_card"]
  max_output_length : Option Int := none
  enable_quality_check : Bool := false
  min_quality_score : Rat := 6 / 10


/-- The mutable state of a `HooksRegistry` instance (`__init__`): the
framework bucket and per-project buckets inherited from `PriorityRegistry`,
the layered builtin flags, the layered override maps and the shared
name-keyed `_hook_types` map.  The `_builtin_hooks` lazy cache is
behaviourally transparent and modelled by the pure `getBuiltinHook`. -/
structure HooksState where
  framework_hooks : List (String × HookConfig) := []
  project_hooks : List (String × List (String × HookConfig)) := []
  framework_flags : BuiltinFlags := {}
  project_flags : List (String × BuiltinFlags) := []
  framework_overrides : List (String × HookOverride) := []
  project_overrides : List (String × List (String × HookOverride)) := []
  hook_types : List (String × String) := []


/-- The loop body shared by `register_framework_hooks` and
`register_project_hooks`: `_check_conflict` followed by the two
assignments, hook after hook; a conflict stops the loop with the mutations
made so far kept (Python raises out of the loop, leaving the dicts as they
are). -/
def registerHooksInto (bucket : List (String × HookConfig))
    (types : List (String × String)) (hooks : List HookConfig)
    (htype level : String) :
    Option RegistryConflictError × List (String × HookConfig) ×
      List (String × String) :=
  match hooks with
  | [] => (none, bucket, types)
  | h :: rest =>
    if dcontains bucket h.name then
      (some ⟨h.name, level⟩, bucket, types)
    else
      registerHooksInto (dinsert bucket h.name h)
        (dinsert types h.name htype) rest htype level

/-- The `BuiltinFlags(...)` construction performed by both registration
methods. -/
def flagsOfConfig (config : HooksConfig) : BuiltinFlags :=
  { enable_content_safety := config.enable_content_safety
    content_safety_level := config.content_safety_level
    enable_pii_filter := config.enable_pii_filter
    pii_types := config.pii_types
    enable_quality_check := config.enable_quality_check
    min_quality_score := config.min_quality_score
    max_output_length := config.max_output_length }

/-- `HooksRegistry.register_framework_hooks`.  Returns the raised
`RegistryConflictError` (if any) together with the state of the registry
after the call, conflict or not. -/
def registerFrameworkHooks (st : HooksState) (config : HooksConfig) :
    Option RegistryConflictError × HooksState :=
  match registerHooksInto st.framework_hooks st.hook_types
      config.pre_hooks "pre" "framework" with
  | (some e, b, t) =>
    (some e, { st with framework_hooks := b, hook_types := t })
  | (none, b, t) =>
    match registerHooksInto b t config.post_hooks "post" "framework" with
    | (some e, b2, t2) =>
      (some e, { st with framework_hooks := b2, hook_types := t2 })
    | (none, b2, t2) =>
      (none,
        { st with
          framework_hooks := b2
          hook_types := t2
          framework_flags := flagsOfConfig config
          framework_overrides :=
            config.overrides.foldl
              (fun m ov => dinsert m ov.hook_name ov)
              st.framework_overrides })

/-- `HooksRegistry.register_project_hooks`.  The per-project bucket is
created on first use and mutated in place, so on a conflict the partially
filled bucket is written back. -/
def registerProjectHooks (st : HooksState) (project_id : String)
    (config : HooksConfig) : Option RegistryConflictError × HooksState :=
  let ph :=
    if dcontains st.project_hooks project_id then st.project_hooks
    else dinsert st.project_hooks project_id []
  let bucket := (dlookup ph project_id).getD []
  match registerHooksInto bucket st.hook_types
      config.pre_hooks "pre" "project" with
  | (some e, b, t) =>
    (some e,
      { st with project_hooks := dinsert ph project_id b, hook_types := t })
  | (none, b, t) =>
    match registerHooksInto b t config.post_hooks "post" "project" with
    | (some e, b2, t2) =>
      (some e,
        { st with
          project_hooks := dinsert ph project_id b2, hook_types := t2 })
    | (none, b2, t2) =>
      (none,
        { st with
          project_hooks := dinsert ph project_id b2
          hook_types := t2
          project_flags :=
            dinsert st.project_flags project_id (flagsOfConfig config)
          project_overrides :=
            let po :=
              if dcontains st.project_overrides project_id then
                st.project_overrides
              else dinsert st.project_overrides project_id []
            dinsert po project_id
              (config.overrides.foldl
                (fun m ov => dinsert m ov.hook_name ov)
                ((dlookup po project_id).getD [])) })

/-- `HooksRegistry._get_builtin_hook` (the import always succeeds in this
repository; unknown names fall through to `dict.get` returning `None`). -/
def getBuiltinHook : String → Option Callable
  | "content_safety" => some Callable.builtinCS
  | "pii_filter" => some Callable.builtinPII
  | "quality_check" => some Callable.builtinQC
  | _ => none

/-- `HooksRegistry._apply_hook`: the `enabled` check comes first, then the
override directive for the hook's name, if any, is applied; a `replace`
without replacement or a `wrap` without wrapper falls through to the
original function. -/
def applyHook (hook : HookConfig)
    (overrides : List (String × HookOverride)) : Option Callable :=
  if hook.enabled = false then none
  else
    match dlookup overrides hook.name with
    | some ov =>
      if ov.mode = "disable" then none
      else if ov.mode = "replace" then
        match ov.replacement with
        | some r => some r
        | none => some hook.hook_fn
      else if ov.mode = "wrap" then
        match ov.wrapper with
        | some w => some (Callable.hookWrapped w hook.hook_fn)
        | none => some hook.hook_fn
      else some hook.hook_fn
    | none => some hook.hook_fn

/-- `HooksRegistry._resolve_bool_flag`. -/
def resolveBoolFlag (framework : Bool) (project agent : Option Bool) : Bool :=
  match agent with
  | some a => a
  | none =>
    match project with
    | some p => p
    | none => framework

/-- `HooksRegistry._collect_hooks_by_type`: Framework bucket, then the
selected project's bucket, then the agent-supplied list, each hook passing
through `_apply_hook`; framework and project hooks are filtered by the
shared `_hook_types` map. -/
def collectHooksByType (st : HooksState) (hook_type : String)
    (project_id : Option String) (agent_hooks : List HookConfig)
    (overrides : List (String × HookOverride)) : List Callable :=
  let fw := st.framework_hooks.filterMap (fun p =>
    if dlookup st.hook_types p.1 = some hook_type then
      applyHook p.2 overrides
    else none)
  let pr :=
    match truthy project_id with
    | some pid =>
      match dlookup st.project_hooks pid with
      | some bucket =>
        bucket.filterMap (fun p =>
          if dlookup st.hook_types p.1 = some hook_type then
            applyHook p.2 overrides
          else none)
      | none => []
    | none => []
  let ag := agent_hooks.filterMap (fun h => applyHook h overrides)
  fw ++ pr ++ ag

/-- `HooksRegistry._collect_post_hooks`: agent-supplied list first, then the
selected project's bucket, then the framework bucket; bucket hooks are
filtered to `"post"` by the shared `_hook_types` map, agent hooks are not
filtered. -/
def collectPostHooks (st : HooksState) (project_id : Option String)
    (agent_hooks : List HookConfig)
    (overrides : List (String × HookOverride)) : List Callable :=
  let ag := agent_hooks.filterMap (fun h => applyHook h overrides)
  let pr :=
    match truthy project_id with
    | some pid =>
      match dlookup st.project_hooks pid with
      | some bucket =>
        bucket.filterMap (fun p =>
          if dlookup st.hook_types p.1 = some "post" then
            applyHook p.2 overrides
          else none)
      | none => []
    | none => []
  let fw := st.framework_hooks.filterMap (fun p =>
    if dlookup st.hook_types p.1 = some "post" then
      applyHook p.2 overrides
    else none)
  ag ++ pr ++ fw

/-- `HooksRegistry.get_hooks_for_agent`: merge the override maps in
Framework → Project → Agent order, resolve the three builtin toggles,
synthesize the enabled builtins as leading post-hooks unless an override
directive exists under their well-known name, then collect the custom
pre- and post-hooks. -/
def getHooksForAgent (st : HooksState) (agent_hooks : Option HooksConfig)
    (project_id : Option String) : List Callable × List Callable :=
  let framework_flags := st.framework_flags
  let project_flags : Option BuiltinFlags :=
    match truthy project_id with
    | some pid => dlookup st.project_flags pid
    | none => none
  let all_overrides := st.framework_overrides
  let all_overrides :=
    match truthy project_id with
    | some pid =>
      match dlookup st.project_overrides pid with
      | some po => dupdate all_overrides po
      | none => all_overrides
    | none => all_overrides
  let all_overrides :=
    match agent_hooks with
    | some ah =>
      ah.overrides.foldl (fun m ov => dinsert m ov.hook_name ov)
        all_overrides
    | none => all_overrides
  let final_content_safety := resolveBoolFlag
    framework_flags.enable_content_safety
    (project_flags.map (fun f => f.enable_content_safety))
    (agent_hooks.map (fun a => a.enable_content_safety))
  let final_pii_filter := resolveBoolFlag
    framework_flags.enable_pii_filter
    (project_flags.map (fun f => f.enable_pii_filter))
    (agent_hooks.map (fun a => a.enable_pii_filter))
  let final_quality_check := resolveBoolFlag
    framework_flags.enable_quality_check
    (project_flags.map (fun f => f.enable_quality_check))
    (agent_hooks.map (fun a => a.enable_quality_check))
  let post_hooks : List Callable := []
  let post_hooks :=
    if final_content_safety && !(dcontains all_overrides "content_safety") then
      match getBuiltinHook "content_safety" with
      | some h => post_hooks ++ [h]
      | none => post_hooks
    else post_hooks
  let post_hooks :=
    if final_pii_filter && !(dcontains all_overrides "pii_filter") then
      match getBuiltinHook "pii_filter" with
      | some h => post_hooks ++ [h]
      | none => post_hooks
    else post_hooks
  let post_hooks :=
    if final_quality_check && !(dcontains all_overrides "quality_check") then
      match getBuiltinHook "quality_check" with
      | some h => post_hooks ++ [h]
      | none => post_hooks
    else post_hooks
  let agent_pre :=
    match agent_hooks with
    | some ah => ah.pre_hooks
    | none => []
  let agent_post :=
    match agent_hooks with
    | some ah => ah.post_hooks
    | none => []
  let pre_hooks :=
    collectHooksByType st "pre" project_id agent_pre all_overrides
  let post_hooks :=
    post_hooks ++ collectPostHooks st project_id agent_post all_overrides
  (pre_hooks, post_hooks)

/-- `ToolDefinition` from `app/tools/registry.py`.  The `parameters` field
is introspection metadata extracted from the function signature
(`_extract_parameters`) and never influences resolution; it is omitted. -/
structure ToolDefinition where
  name : String
  description : String
  func : Callable
  level : String := "framework"

/-- `ToolOverride` from `app/tools/config.py`.  The inherit-mode parameter
surgery fields (`param_overrides`, `additional_params`, `hidden_params`)
only rewrite keyword arguments inside the inherited closure and are not
needed by the claims; they are omitted from the closure payload. -/
structure ToolOverride where
  tool_name : String
  mode : String := "inherit"
  description : Option String := none
  pre_hook : Option Callable := none
  post_hook : Option Callable := none
  replacement : Option Callable := none

/-- `ProjectToolsConfig` from `app/tools/config.py`; custom tools are named
callables (the name is the function's `__name__`). -/
structure ProjectToolsConfig where
  project_id : String
  overrides : List ToolOverride := []
  custom_tools : List (String × Callable) := []
  disabled_tools : List String := []

/-- The mutable state of a `ToolRegistry` instance (`__init__`). -/
structure ToolsState where
  framework_tools : List (String × ToolDefinition) := []
  project_configs : List (String × ProjectToolsConfig) := []

/-- `ToolRegistry.register_framework_tool`: plain dict assignment, with no
conflict check (`name` is the explicit name or the function's `__name__`,
`description` the explicit description or the first docstring line). -/
def registerFrameworkTool (st : ToolsState) (tool : Callable) (name : String)
    (description : String) : ToolsState :=
  { st with
    framework_tools :=
      dinsert st.framework_tools name
        { name := name, description := description, func := tool
          level := "framework" } }

/-- `ToolRegistry.register_project_config`: plain dict assignment keyed by
the config's project id. -/
def registerProjectConfig (st : ToolsState) (config : ProjectToolsConfig) :
    ToolsState :=
  { st with
    project_configs :=
      dinsert st.project_configs config.project_id config }

/-- `ToolRegistry._apply_override`: dispatch on the directive's mode;
`replace` without a replacement falls back to the base function with a
warning, `wrap` builds the pre/post-hook closure, anything else (the
`inherit` default) builds the inherited closure. -/
def applyOverride (base_tool : ToolDefinition) (override : ToolOverride) :
    Callable :=
  if override.mode = "replace" then
    match override.replacement with
    | some r => r
    | none => base_tool.func
  else if override.mode = "wrap" then
    Callable.toolWrapped override.pre_hook override.post_hook base_tool.func
  else
    Callable.toolInherited base_tool.func override.description

/-- `ToolRegistry.get_tools_for_agent`, stopped just before
`list(final_tools.values())`: the ordered name → callable mapping built by
the four resolution steps. -/
def getToolsMapForAgent (st : ToolsState)
    (agent_tools : List (String × Callable))
    (agent_overrides : List ToolOverride) (project_id : Option String) :
    List (String × Callable) :=
  let final_tools : List (String × Callable) :=
    st.framework_tools.foldl (fun m p => dinsert m p.1 p.2.func) []
  let final_tools :=
    match truthy project_id with
    | some pid =>
      match dlookup st.project_configs pid with
      | some project_config =>
        let final_tools :=
          project_config.disabled_tools.foldl (fun m n => dpop m n)
            final_tools
        let final_tools :=
          project_config.overrides.foldl (fun m ov =>
            match dlookup st.framework_tools ov.tool_name with
            | some base_tool =>
              dinsert m ov.tool_name (applyOverride base_tool ov)
            | none => m) final_tools
        project_config.custom_tools.foldl (fun m p => dinsert m p.1 p.2)
          final_tools
      | none => final_tools
    | none => final_tools
  let final_tools :=
    agent_overrides.foldl (fun m ov =>
      match dlookup st.framework_tools ov.tool_name with
      | some base_tool =>
        dinsert m ov.tool_name (applyOverride base_tool ov)
      | none =>
        match dlookup m ov.tool_name with
        | some current_func =>
          dinsert m ov.tool_name
            (applyOverride
              { name := ov.tool_name, description := ""
                func := current_func, level := "project" } ov)
        | none => m) final_tools
  agent_tools.foldl (fun m p => dinsert m p.1 p.2) final_tools

/-- `ToolRegistry.get_tools_for_agent`: the final tool list. -/
def getToolsForAgent (st : ToolsState)
    (agent_tools : List (String × Callable))
    (agent_overrides : List ToolOverride) (project_id : Option String) :
    List Callable :=
  dvalues (getToolsMapForAgent st agent_tools agent_overrides project_id)

/-- Observable behaviour of `HooksRegistry._create_wrapper`: the returned
`wrapped_hook` calls `wrapper(original, *args, **kwargs)`. -/
def createWrapperFn {α β : Type} (original : α → β)
    (wrapper : (α → β) → α → β) : α → β :=
  fun x => wrapper original x

/-- Observable behaviour of `ToolRegistry._apply_wrap` (sync branch; the
async branch is identical up to `await`): the returned `wrapped_sync`
pipes the keyword arguments through `pre_hook` when present, calls the
original, and pipes the result through `post_hook` when present. -/
def applyWrapSync (pre_hook post_hook : Option (Int → Int))
    (original_func : Int → Int) : Int → Int :=
  fun kwargs =>
    let kwargs :=
      match pre_hook with
      | some p => p kwargs
      | none => kwargs
    let result := original_func kwargs
    match post_hook with
    | some q => q result
    | none => result

/-- Scenario for the atomicity analysis: a registry already holding a
framework pre-hook named "b". -/
def c8St1 : HooksState :=
  (registerFrameworkHooks {}
    { pre_hooks := [{ name := "b", hook_fn := Callable.fn 0,
                      hook_type := "pre" }] }).2

/-- Scenario for the atomicity analysis: a config whose second pre-hook
duplicates the already-registered name "b". -/
def c8Cfg2 : HooksConfig :=
  { pre_hooks := [{ name := "a", hook_fn := Callable.fn 1, hook_type := "pre" },
                  { name := "b", hook_fn := Callable.fn 2, hook_type := "pre" }] }

/-- Registering two framework tools under the same name, as the repository's
own test `test_framework_same_name_raises_conflict` does. -/
def c2ToolsTwice : ToolsState :=
  registerFrameworkTool
    (registerFrameworkTool {} (Callable.fn 0) "shared_tool" "Dummy tool A")
    (Callable.fn 1) "shared_tool" "Dummy tool B"

/-- C1: with an enabled Framework pre-hook F, an enabled Project pre-hook P
registered under project "x", an Agent-supplied enabled pre-hook A, and the
analogous post-hooks, no overrides and no builtin toggles, resolving with
`project_id = "x"` returns the pre-hooks in order [F, P, A] and the
post-hooks in order [A, P, F]. -/
theorem c1_hook_ordering (fF fP fA gF gP gA : Callable) :
    getHooksForAgent
      ((registerProjectHooks
        ((registerFrameworkHooks {}
          { pre_hooks := [{ name := "fw_pre", hook_fn := fF, hook_type := "pre" }]
            post_hooks := [{ name := "fw_post", hook_fn := gF }] }).2)
        "x"
        { pre_hooks := [{ name := "pj_pre", hook_fn := fP, hook_type := "pre" }]
          post_hooks := [{ name := "pj_post", hook_fn := gP }] }).2)
      (some { pre_hooks := [{ name := "ag_pre", hook_fn := fA, hook_type := "pre" }]
              post_hooks := [{ name := "ag_post", hook_fn := gA }] })
      (some "x")
    = ([fF, fP, fA], [gA, gP, gF]) := by
  simp [getHooksForAgent, registerFrameworkHooks, registerProjectHooks,
    registerHooksInto, collectHooksByType, collectPostHooks, applyHook,
    dinsert, dcontains, dlookup, dupdate, truthy, resolveBoolFlag,
    getBuiltinHook, flagsOfConfig, List.filterMap, Option.map, Option.getD]

theorem dlookup_dinsert_self {α : Type} (m : List (String × α)) (k : String)
    (v : α) : dlookup (dinsert m k v) k = some v := by
  induction m with
  | nil => simp [dinsert, dlookup]
  | cons p m ih =>
    by_cases h : p.1 = k
    · simp [dinsert, dlookup, h]
    · simp [dinsert, dlookup, h, ih]

theorem dlookup_dinsert_ne {α : Type} (m : List (String × α)) (k k' : String)
    (v : α) (h : k ≠ k') : dlookup (dinsert m k v) k' = dlookup m k' := by
  induction m with
  | nil => simp [dinsert, dlookup, h]
  | cons p m ih =>
    by_cases hp : p.1 = k
    · simp [dinsert, dlookup, hp, h]
    · simp [dinsert, dlookup, hp, ih]

theorem dcontains_of_dlookup {α : Type} (m : List (String × α)) (k : String)
    (v : α) (h : dlookup m k = some v) : dcontains m k = true := by
  induction m with
  | nil => simp [dlookup] at h
  | cons p m ih =>
    by_cases hp : p.1 = k
    · simp [dcontains, hp]
    · simp [dlookup, hp] at h
      simp [dcontains, hp, ih h]

theorem dlookup_mem_dvalues {α : Type} (m : List (String × α)) (k : String)
    (v : α) (h : dlookup m k = some v) : v ∈ dvalues m := by
  induction m with
  | nil => simp [dlookup] at h
  | cons p m ih =>
    by_cases hp : p.1 = k
    · simp [dlookup, hp] at h
      simp [dvalues, h]
    · simp [dlookup, hp] at h
      simp [dvalues]
      exact Or.inr (by simpa [dvalues] using ih h)

theorem foldl_dinsert_lookup_preserved {α : Type}
    (ts : List (String × α)) (m : List (String × α)) (k : String)
    (h : ∀ q ∈ ts, q.1 ≠ k) :
    dlookup (ts.foldl (fun m p => dinsert m p.1 p.2) m) k = dlookup m k := by
  induction ts generalizing m with
  | nil => rfl
  | cons a ts ih =>
    simp only [List.foldl_cons]
    rw [ih _ (fun q hq => h q (List.mem_cons_of_mem a hq))]
    exact dlookup_dinsert_ne _ _ _ _ (h a (List.mem_cons_self a ts))

theorem foldl_dinsert_lookup_last {α : Type}
    (ts : List (String × α)) (m : List (String × α)) (k : String) (v : α)
    (hmem : (k, v) ∈ ts) (hall : ∀ q ∈ ts, q.1 = k → q.2 = v) :
    dlookup (ts.foldl (fun m p => dinsert m p.1 p.2) m) k = some v := by
  induction ts generalizing m with
  | nil => cases hmem
  | cons a ts ih =>
    simp only [List.foldl_cons]
    by_cases hts : ∃ q ∈ ts, q.1 = k
    · obtain ⟨q, hq, hqk⟩ := hts
      have hqv : q.2 = v := hall q (List.mem_cons_of_mem a hq) hqk
      have hq' : (k, v) ∈ ts := by
        rw [← hqk, ← hqv, Prod.mk.eta]
        exact hq
      exact ih _ hq' (fun q hq h => hall q (List.mem_cons_of_mem a hq) h)
    · have hak : a = (k, v) := by
        rcases List.mem_cons.mp hmem with h1 | h1
        · exact h1.symm
        · exact absurd ⟨(k, v), h1, rfl⟩ hts
      subst hak
      rw [foldl_dinsert_lookup_preserved ts _ k
        (fun q hq hqk => hts ⟨q, hq, hqk⟩)]
      exact dlookup_dinsert_self m k v

/-- C4: `_resolve_bool_flag` is a pure total function of its three
arguments: it returns the agent value when set, else the project value when
set, else the framework value; in particular framework=False, project=True,
agent=None resolves to True, and agent=False resolves to False. -/
theorem c4_resolve_flag (framework : Bool) (project agent : Option Bool) :
    resolveBoolFlag framework project agent
      = agent.getD (project.getD framework)
    ∧ resolveBoolFlag false (some true) none = true
    ∧ resolveBoolFlag false (some true) (some false) = false := by
  refine ⟨?_, rfl, rfl⟩
  cases agent <;> cases project <;> rfl

/-- C5: a hook whose `enabled` flag is False is dropped by `_apply_hook`
for every override map — the enabled check precedes any override lookup, so
no directive targeting the hook is consulted. -/
theorem c5_disabled_always_excluded (hook : HookConfig)
    (overrides : List (String × HookOverride))
    (h : hook.enabled = false) :
    applyHook hook overrides = none := by
  simp [applyHook, h]

theorem c5_disabled_always_excluded_witness :
    applyHook { name := "h", hook_fn := Callable.fn 0, enabled := false }
      [("h", { hook_name := "h", mode := "replace",
               replacement := some (Callable.fn 1) })] = none :=
  c5_disabled_always_excluded _ _ rfl

/-- C6 (amended): the hooks registry's wrap mode yields g with
g(args) = wrapper(original, args); the tool registry's wrap-mode directive
carries no such wrapper — it yields g with
g(kwargs) = post_hook(original(pre_hook(kwargs))), each hook defaulting to
the identity when absent, so the directive-supplied callables never receive
the original function. -/
theorem c6_wrap_semantics (w : (Int → Int) → Int → Int) (f : Int → Int)
    (x : Int) (pre post : Option (Int → Int)) :
    createWrapperFn f w x = w f x
    ∧ applyWrapSync pre post f x = (post.getD id) (f ((pre.getD id) x)) := by
  refine ⟨rfl, ?_⟩
  cases pre <;> cases post <;> rfl

/-- C6 counterexample: the wrapper w(f, x) = f x + f (x + 1) is a perfectly
valid hooks-registry wrap directive, but no tool-registry wrap directive
(no choice of pre/post hooks) makes `_apply_wrap` observably equivalent to
calling w(f, ·): the claim fails for the tool registry's wrap mode. -/
theorem c6_counterexample :
    ¬ ∃ (pre post : Option (Int → Int)), ∀ (f : Int → Int) (x : Int),
      applyWrapSync pre post f x
        = createWrapperFn f (fun f0 x0 => f0 x0 + f0 (x0 + 1)) x := by
  rintro ⟨pre, post, h⟩
  have hpost : ∀ c : Int, (post.getD id) c = c + c := by
    intro c
    have hc := h (fun _ => c) 0
    cases post <;> simpa [applyWrapSync, createWrapperFn] using hc
  have h1 : (post.getD id) ((pre.getD id) 0) = 1 := by
    have h0 := h id 0
    cases pre <;> cases post <;>
      simpa [applyWrapSync, createWrapperFn] using h0
  rw [hpost] at h1
  omega

/-- C3 counterexample: content safety is enabled at Framework level and the
agent supplies a replace directive under the builtin's well-known name
"content_safety" with replacement `fn 5`; the claim says the directive
replaces the builtin like a custom hook, i.e. the replacement appears in
the post-hook list, but resolution returns an empty post-hook list — the
builtin is dropped entirely and the replacement never appears. -/
theorem c3_counterexample :
    (getHooksForAgent
      ((registerFrameworkHooks {} { enable_content_safety := true }).2)
      (some { enable_content_safety := true
              overrides := [{ hook_name := "content_safety"
                              mode := "replace"
                              replacement := some (Callable.fn 5) }] })
      none).2 = [] := by
  simp [getHooksForAgent, registerFrameworkHooks, registerHooksInto,
    collectHooksByType, collectPostHooks, applyHook, dinsert, dcontains,
    dlookup, dupdate, truthy, resolveBoolFlag, getBuiltinHook,
    flagsOfConfig, List.filterMap, Option.map, Option.getD]

/-- C3 (amended): an enabled builtin toggle synthesizes the builtin as a
post-hook placed before the custom post-hooks only when no override
directive exists under its well-known name; if any override directive
exists under that name — whatever its mode, replacement or wrapper — the
builtin is omitted from the post-hook list entirely (the directive is never
applied to the builtin, so replace does not yield the replacement and wrap
does not yield a wrapped builtin). -/
theorem c3_builtin_toggle_behaviour (g : Callable) (m : String)
    (r w : Option Callable) :
    (getHooksForAgent
      ((registerFrameworkHooks {}
        { post_hooks := [{ name := "custom_post", hook_fn := g }]
          enable_content_safety := true }).2)
      none none)
    = ([], [Callable.builtinCS, g])
    ∧ (getHooksForAgent
      ((registerFrameworkHooks {}
        { post_hooks := [{ name := "custom_post", hook_fn := g }]
          enable_content_safety := true }).2)
      (some { enable_content_safety := true
              overrides := [{ hook_name := "content_safety", mode := m
                              replacement := r, wrapper := w }] })
      none)
    = ([], [g]) := by
  constructor <;>
    simp [getHooksForAgent, registerFrameworkHooks, registerHooksInto,
      collectHooksByType, collectPostHooks, applyHook, dinsert, dcontains,
      dlookup, dupdate, truthy, resolveBoolFlag, getBuiltinHook,
      flagsOfConfig, List.filterMap, Option.map, Option.getD]

/-- C9 counterexample: a framework hook "h" registered as a pre-hook is
emitted as a pre-hook; after a project-level post-hook with the same name
"h" is registered, resolving with that project emits the framework hook's
function in the post phase and the pre-hook list becomes empty — the
later registration at another scope changed the phase of the
earlier-registered hook. -/
theorem c9_counterexample :
    (getHooksForAgent
      ((registerFrameworkHooks {}
        { pre_hooks := [{ name := "h", hook_fn := Callable.fn 0,
                          hook_type := "pre" }] }).2)
      none none)
    = ([Callable.fn 0], [])
    ∧ (getHooksForAgent
      ((registerProjectHooks
        ((registerFrameworkHooks {}
          { pre_hooks := [{ name := "h", hook_fn := Callable.fn 0,
                            hook_type := "pre" }] }).2)
        "p" { post_hooks := [{ name := "h", hook_fn := Callable.fn 1 }] }).2)
      none (some "p"))
    = ([], [Callable.fn 1, Callable.fn 0]) := by
  constructor <;>
    simp [getHooksForAgent, registerFrameworkHooks, registerProjectHooks,
      registerHooksInto, collectHooksByType, collectPostHooks, applyHook,
      dinsert, dcontains, dlookup, dupdate, truthy, resolveBoolFlag,
      getBuiltinHook, flagsOfConfig, List.filterMap, Option.map, Option.getD]

/-- C9 (amended): each same-named registration remains independently
retrievable (each scope bucket keeps its own config unchanged), but the
emission phase is looked up in the single name-keyed `_hook_types` map
shared across scopes, so the most recent registration under a name decides
the phase in which every framework/project hook of that name is emitted:
after a project post-hook "h" is registered over a framework pre-hook "h",
both are emitted in the post phase. -/
theorem c9_phase_follows_latest_registration (f g : Callable) :
    dlookup ((registerProjectHooks
        ((registerFrameworkHooks {}
          { pre_hooks := [{ name := "h", hook_fn := f,
                            hook_type := "pre" }] }).2)
        "p" { post_hooks := [{ name := "h", hook_fn := g }] }).2).framework_hooks
      "h" = some { name := "h", hook_fn := f, hook_type := "pre" }
    ∧ dlookup ((dlookup ((registerProjectHooks
        ((registerFrameworkHooks {}
          { pre_hooks := [{ name := "h", hook_fn := f,
                            hook_type := "pre" }] }).2)
        "p" { post_hooks := [{ name := "h", hook_fn := g }] }).2).project_hooks
        "p").getD []) "h" = some { name := "h", hook_fn := g }
    ∧ dlookup ((registerProjectHooks
        ((registerFrameworkHooks {}
          { pre_hooks := [{ name := "h", hook_fn := f,
                            hook_type := "pre" }] }).2)
        "p" { post_hooks := [{ name := "h", hook_fn := g }] }).2).hook_types
      "h" = some "post"
    ∧ (getHooksForAgent
        ((registerProjectHooks
          ((registerFrameworkHooks {}
            { pre_hooks := [{ name := "h", hook_fn := f,
                              hook_type := "pre" }] }).2)
          "p" { post_hooks := [{ name := "h", hook_fn := g }] }).2)
        none (some "p"))
      = ([], [g, f]) := by
  refine ⟨?_, ?_, ?_, ?_⟩ <;>
    simp [getHooksForAgent, registerFrameworkHooks, registerProjectHooks,
      registerHooksInto, collectHooksByType, collectPostHooks, applyHook,
      dinsert, dcontains, dlookup, dupdate, truthy, resolveBoolFlag,
      getBuiltinHook, flagsOfConfig, List.filterMap, Option.map, Option.getD]

/-- C2: the hooks registry raises a conflict carrying the offending name
and scope on the second same-name registration, but
`ToolRegistry.register_framework_tool` performs no conflict check at all —
registering "shared_tool" twice silently overwrites the first registration
(the repository's own test `test_framework_same_name_raises_conflict`
expects a `RegistryConflictError` from exactly this call sequence). -/
theorem c2_tool_registry_conflict_check_missing :
    (dlookup c2ToolsTwice.framework_tools "shared_tool").map
        (fun d => d.func) = some (Callable.fn 1)
    ∧ (registerFrameworkHooks
        ((registerFrameworkHooks {}
          { pre_hooks := [{ name := "my_hook", hook_fn := Callable.fn 0,
                            hook_type := "pre" }] }).2)
        { pre_hooks := [{ name := "my_hook", hook_fn := Callable.fn 1,
                          hook_type := "pre" }] }).1
      = some ⟨"my_hook", "framework"⟩ := by
  constructor <;>
    simp [c2ToolsTwice, registerFrameworkTool, registerFrameworkHooks,
      registerHooksInto, dinsert, dcontains, dlookup, Option.map]

/-- C7: an Agent-supplied tool named n (all agent tools of that name
carrying payload p) always ends up as the effective entry under n, for
every registry state, project selection and agent override list — the
Agent overlay is an unconditional last-wins replace. -/
theorem c7_agent_overlay_absolute (st : ToolsState)
    (agent_tools : List (String × Callable))
    (agent_overrides : List ToolOverride) (project_id : Option String)
    (n : String) (p : Callable)
    (hmem : (n, p) ∈ agent_tools)
    (hall : ∀ q ∈ agent_tools, q.1 = n → q.2 = p) :
    dlookup (getToolsMapForAgent st agent_tools agent_overrides project_id) n
      = some p
    ∧ p ∈ getToolsForAgent st agent_tools agent_overrides project_id := by
  have hmap :
      dlookup (getToolsMapForAgent st agent_tools agent_overrides project_id)
        n = some p := by
    unfold getToolsMapForAgent
    exact foldl_dinsert_lookup_last agent_tools _ n p hmem hall
  exact ⟨hmap, dlookup_mem_dvalues _ _ _ hmap⟩

theorem c7_agent_overlay_absolute_witness :
    dlookup (getToolsMapForAgent
      (registerProjectConfig
        (registerFrameworkTool {} (Callable.fn 0) "search" "Framework")
        { project_id := "p1", custom_tools := [("search", Callable.fn 1)] })
      [("search", Callable.fn 2)] [] (some "p1")) "search"
      = some (Callable.fn 2) :=
  (c7_agent_overlay_absolute _ _ _ _ "search" (Callable.fn 2)
    (by simp) (by simp)).1

theorem registerHooksInto_preserves (hooks : List HookConfig)
    (bucket : List (String × HookConfig)) (types : List (String × String))
    (htype level : String) (n : String) (v : HookConfig)
    (h : dlookup bucket n = some v) :
    dlookup (registerHooksInto bucket types hooks htype level).2.1 n
      = some v := by
  induction hooks generalizing bucket types with
  | nil => simpa [registerHooksInto]
  | cons hk hooks ih =>
    by_cases hc : dcontains bucket hk.name
    · simpa [registerHooksInto, hc]
    · rw [show registerHooksInto bucket types (hk :: hooks) htype level
          = registerHooksInto (dinsert bucket hk.name hk)
              (dinsert types hk.name htype) hooks htype level by
        simp [registerHooksInto, hc]]
      apply ih
      by_cases hn : hk.name = n
      · exact absurd (hn ▸ dcontains_of_dlookup bucket n v h) (by simpa [hn] using hc)
      · rw [dlookup_dinsert_ne _ _ _ _ hn]
        exact h

/-- C8 counterexample: with a framework hook "b" already registered,
registering a config whose pre-hooks are ["a", "b"] raises the conflict on
"b" — but the config's first hook "a" is left registered, so the registry's
observable state did change: registration is not atomic. -/
theorem c8_counterexample :
    (registerFrameworkHooks c8St1 c8Cfg2).1 = some ⟨"b", "framework"⟩
    ∧ dcontains (registerFrameworkHooks c8St1 c8Cfg2).2.framework_hooks "a"
        = true
    ∧ dcontains c8St1.framework_hooks "a" = false
    ∧ (registerFrameworkHooks c8St1 c8Cfg2).2 ≠ c8St1 := by
  refine ⟨?_, ?_, ?_, fun hEq => ?_⟩
  · simp [c8St1, c8Cfg2, registerFrameworkHooks, registerHooksInto,
      dinsert, dcontains, dlookup]
  · simp [c8St1, c8Cfg2, registerFrameworkHooks, registerHooksInto,
      dinsert, dcontains, dlookup]
  · simp [c8St1, c8Cfg2, registerFrameworkHooks, registerHooksInto,
      dinsert, dcontains, dlookup]
  · have hcongr := congrArg (fun s => dcontains s.framework_hooks "a") hEq
    simp [c8St1, c8Cfg2, registerFrameworkHooks, registerHooksInto,
      dinsert, dcontains, dlookup] at hcongr

/-- C8 (amended): a `register_framework_hooks` call that raises a conflict
leaves the flags, the override map and the project-scope buckets unchanged
(they are only written after the hook loops), and every hook registered
before the call is still present unchanged — but hooks of the failing
config that precede the conflicting one remain inserted, so the framework
bucket itself may have grown (see the counterexample). -/
theorem c8_registration_failure_effects (st : HooksState)
    (cfg : HooksConfig) (e : RegistryConflictError) (st' : HooksState)
    (h : registerFrameworkHooks st cfg = (some e, st')) :
    st'.framework_flags = st.framework_flags
    ∧ st'.framework_overrides = st.framework_overrides
    ∧ st'.project_hooks = st.project_hooks
    ∧ st'.project_flags = st.project_flags
    ∧ st'.project_overrides = st.project_overrides
    ∧ ∀ n v, dlookup st.framework_hooks n = some v →
        dlookup st'.framework_hooks n = some v := by
  unfold registerFrameworkHooks at h
  rcases hpre : registerHooksInto st.framework_hooks st.hook_types
      cfg.pre_hooks "pre" "framework" with ⟨o1, b1, t1⟩
  rw [hpre] at h
  cases o1 with
  | some e1 =>
    simp only [Prod.mk.injEq] at h
    obtain ⟨-, hst⟩ := h
    subst hst
    refine ⟨rfl, rfl, rfl, rfl, rfl, fun n v hv => ?_⟩
    have hpres := registerHooksInto_preserves cfg.pre_hooks
      st.framework_hooks st.hook_types "pre" "framework" n v hv
    rw [hpre] at hpres
    exact hpres
  | none =>
    dsimp only at h
    rcases hpost : registerHooksInto b1 t1 cfg.post_hooks "post"
        "framework" with ⟨o2, b2, t2⟩
    rw [hpost] at h
    cases o2 with
    | some e2 =>
      simp only [Prod.mk.injEq] at h
      obtain ⟨-, hst⟩ := h
      subst hst
      refine ⟨rfl, rfl, rfl, rfl, rfl, fun n v hv => ?_⟩
      have hpres1 := registerHooksInto_preserves cfg.pre_hooks
        st.framework_hooks st.hook_types "pre" "framework" n v hv
      rw [hpre] at hpres1
      have hpres2 := registerHooksInto_preserves cfg.post_hooks b1 t1
        "post" "framework" n v hpres1
      rw [hpost] at hpres2
      exact hpres2
    | none => simp at h

theorem c8_registration_failure_effects_witness :
    (registerFrameworkHooks c8St1 c8Cfg2).2.framework_flags
        = c8St1.framework_flags
    ∧ (registerFrameworkHooks c8St1 c8Cfg2).2.framework_overrides
        = c8St1.framework_overrides := by
  have hfst : (registerFrameworkHooks c8St1 c8Cfg2).1
      = some ⟨"b", "framework"⟩ := by
    simp [c8St1, c8Cfg2, registerFrameworkHooks, registerHooksInto,
      dinsert, dcontains, dlookup]
  have h : registerFrameworkHooks c8St1 c8Cfg2
      = (some ⟨"b", "framework"⟩, (registerFrameworkHooks c8St1 c8Cfg2).2) := by
    rw [← hfst]
  have hmain := c8_registration_failure_effects c8St1 c8Cfg2
    ⟨"b", "framework"⟩ (registerFrameworkHooks c8St1 c8Cfg2).2 h
  exact ⟨hmain.1, hmain.2.1⟩

theorem foldl_agent_overrides_preserved (st : ToolsState)
    (ovs : List ToolOverride) (m : List (String × Callable)) (x : String)
    (h : ∀ o ∈ ovs, o.tool_name ≠ x) :
    dlookup (ovs.foldl (fun m ov =>
      match dlookup st.framework_tools ov.tool_name with
      | some base_tool =>
        dinsert m ov.tool_name (applyOverride base_tool ov)
      | none =>
        match dlookup m ov.tool_name with
        | some current_func =>
          dinsert m ov.tool_name
            (applyOverride
              { name := ov.tool_name, description := ""
                func := current_func, level := "project" } ov)
        | none => m) m) x = dlookup m x := by
  induction ovs generalizing m with
  | nil => rfl
  | cons o ovs ih =>
    have ho : o.tool_name ≠ x := h o (List.mem_cons_self o ovs)
    simp only [List.foldl_cons]
    rw [ih _ (fun o' h' => h o' (List.mem_cons_of_mem o h'))]
    cases hfw : dlookup st.framework_tools o.tool_name with
    | some b =>
      simp only [hfw]
      exact dlookup_dinsert_ne _ _ _ _ ho
    | none =>
      simp only [hfw]
      cases hc : dlookup m o.tool_name with
      | some c =>
        simp only [hc]
        exact dlookup_dinsert_ne _ _ _ _ ho
      | none => simp only [hc]

theorem foldl_agent_overrides_last (st : ToolsState)
    (ovs : List ToolOverride) (m : List (String × Callable)) (x : String)
    (base : ToolDefinition) (ov : ToolOverride)
    (hbase : dlookup st.framework_tools x = some base)
    (hmem : ov ∈ ovs) (hx : ov.tool_name = x)
    (huniq : ∀ o ∈ ovs, o.tool_name = x → o = ov) :
    dlookup (ovs.foldl (fun m ov =>
      match dlookup st.framework_tools ov.tool_name with
      | some base_tool =>
        dinsert m ov.tool_name (applyOverride base_tool ov)
      | none =>
        match dlookup m ov.tool_name with
        | some current_func =>
          dinsert m ov.tool_name
            (applyOverride
              { name := ov.tool_name, description := ""
                func := current_func, level := "project" } ov)
        | none => m) m) x = some (applyOverride base ov) := by
  induction ovs generalizing m with
  | nil => cases hmem
  | cons o ovs ih =>
    simp only [List.foldl_cons]
    by_cases hts : ∃ o' ∈ ovs, o'.tool_name = x
    · obtain ⟨o', ho', hox⟩ := hts
      have heq : o' = ov := huniq o' (List.mem_cons_of_mem o ho') hox
      exact ih _ (heq ▸ ho')
        (fun o'' h'' hx'' => huniq o'' (List.mem_cons_of_mem o h'') hx'')
    · have ho : o = ov := by
        rcases List.mem_cons.mp hmem with h1 | h1
        · exact h1.symm
        · exact absurd ⟨ov, h1, hx⟩ hts
      subst ho
      rw [foldl_agent_overrides_preserved st ovs _ x
        (fun o' h' hox => hts ⟨o', h', hox⟩)]
      simp only [hx, hbase]
      exact dlookup_dinsert_self m x (applyOverride base o)

/-- C10: when a framework tool named x exists, the selected project's
config lists x among its disabled tools, and the agent supplies an
override directive targeting x (whatever its mode), resolution yields an
effective entry for x built by applying the directive to the framework
base tool — the agent-level override re-introduces the tool the project
disable had removed. -/
theorem c10_agent_override_reintroduces_disabled (st : ToolsState)
    (agent_tools : List (String × Callable))
    (agent_overrides : List ToolOverride) (pid : String)
    (pcfg : ProjectToolsConfig) (x : String) (base : ToolDefinition)
    (ov : ToolOverride)
    (hbase : dlookup st.framework_tools x = some base)
    (hpcfg : dlookup st.project_configs pid = some pcfg)
    (hdis : x ∈ pcfg.disabled_tools)
    (hmem : ov ∈ agent_overrides) (hx : ov.tool_name = x)
    (huniq : ∀ o ∈ agent_overrides, o.tool_name = x → o = ov)
    (hagent : ∀ q ∈ agent_tools, q.1 ≠ x) :
    dlookup (getToolsMapForAgent st agent_tools agent_overrides (some pid)) x
      = some (applyOverride base ov)
    ∧ applyOverride base ov
        ∈ getToolsForAgent st agent_tools agent_overrides (some pid) := by
  have hmap :
      dlookup (getToolsMapForAgent st agent_tools agent_overrides (some pid))
        x = some (applyOverride base ov) := by
    unfold getToolsMapForAgent
    refine Eq.trans (foldl_dinsert_lookup_preserved agent_tools _ x hagent) ?_
    exact foldl_agent_overrides_last st agent_overrides _ x base ov
      hbase hmem hx huniq
  exact ⟨hmap, dlookup_mem_dvalues _ _ _ hmap⟩

theorem c10_agent_override_reintroduces_disabled_witness :
    dlookup (getToolsMapForAgent
      (registerProjectConfig
        (registerFrameworkTool {} (Callable.fn 0) "t" "Base tool")
        { project_id := "p", disabled_tools := ["t"] })
      [] [{ tool_name := "t", mode := "replace",
            replacement := some (Callable.fn 1) }] (some "p")) "t"
      = some (Callable.fn 1) :=
  (c10_agent_override_reintroduces_disabled _ [] _ "p"
    { project_id := "p", disabled_tools := ["t"] } "t"
    { name := "t", description := "Base tool", func := Callable.fn 0
      level := "framework" }
    { tool_name := "t", mode := "replace", replacement := some (Callable.fn 1) }
    (by simp [registerFrameworkTool, registerProjectConfig, dinsert,
      dcontains, dlookup])
    (by simp [registerFrameworkTool, registerProjectConfig, dinsert,
      dcontains, dlookup])
    (by simp) (by simp) rfl (by simp) (by simp)).1
